import Mathlib

/-!
Shallow embedding of `entt/core/tuple.hpp` (namespace `entt`).

The header defines two facilities:

* `unwrap_tuple` — collapses a tuple of static size one to its sole element
  (`std::get<0>(std::forward<Type>(value))`) and forwards any other tuple
  unchanged (`std::forward<Type>(value)`), branching with `if constexpr` on
  `std::tuple_size_v`.
* `forward_apply<Func>` — a class privately deriving from `Func` (containment
  of exactly one wrapped callable), constructed by perfect-forwarding its
  constructor arguments into `Func`, and invocable (const and non-const
  overloads) with a single tuple-like argument which is spread into `Func`
  via `std::apply`.  A deduction guide maps a by-value callable argument to
  `forward_apply<std::remove_reference_t<std::remove_cv_t<Func>>>`.

Embedding choices:

* A tuple of static size `n` with element type `α` is a length-indexed vector
  `Vec α n`: the size is part of the type, as `std::tuple_size` is in C++.
  (Heterogeneity is modelled by the genericity in `α`; every claim is about
  sizes, order and forwarding, not about mixing element types.)
* An `n`-ary callable is the curried type `NAry α β n`; `std_apply` embeds
  `std::apply`, consuming the vector elements in order as separate
  positional arguments.
* The `if constexpr` dispatch of `unwrap_tuple` on the static size becomes a
  type-level function `UnwrapTy` together with a size-indexed definition.
* Value categories (`std::forward`, `std::get`, overload resolution between
  copy and move constructors) are modelled explicitly by `ValueCategory`.
* The non-const call path may mutate the wrapped callable's own state; a
  callable is therefore a record `Callable` with an internal state, a
  mutable call body, and an optional const call body (`none` models a
  callable type with no const-qualified `operator()`, for which a const
  invocation does not compile).
-/

namespace entt

/-- A tuple-like collection of static size `n` over element type `α`
(the embedding of `std::tuple`-likes for this header). -/
inductive Vec (α : Type u) : Nat → Type u where
  | nil : Vec α 0
  | cons {n : Nat} : α → Vec α n → Vec α (n + 1)

/-- Element access, embedding `std::get<i>`. -/
def Vec.get : {n : Nat} → Vec α n → Fin n → α
  | _ + 1, .cons a _, ⟨0, _⟩ => a
  | _ + 1, .cons _ v, ⟨i + 1, h⟩ => v.get ⟨i, Nat.lt_of_succ_lt_succ h⟩

/-- Writing element `i`, the effect of assigning through the reference
`std::get<i>` yields on an lvalue tuple. -/
def Vec.set : {n : Nat} → Vec α n → Fin n → α → Vec α n
  | _ + 1, .cons _ v, ⟨0, _⟩, b => .cons b v
  | _ + 1, .cons a v, ⟨i + 1, h⟩, b => .cons a (v.set ⟨i, Nat.lt_of_succ_lt_succ h⟩ b)

/-- The sole element of a size-one tuple, `std::get<0>`. -/
def Vec.head : Vec α (n + 1) → α
  | .cons a _ => a

/-- The type of an `n`-ary callable over arguments of type `α` returning `β`,
written curried so that applying it spreads arguments positionally. -/
def NAry (α β : Type u) : Nat → Type u
  | 0 => β
  | n + 1 => α → NAry α β n

/-- `std::apply`: invoke an `n`-ary callable with the elements of a tuple
spread out as separate positional arguments, in element order. -/
def std_apply : {n : Nat} → NAry α β n → Vec α n → β
  | 0, f, .nil => f
  | _ + 1, f, .cons a v => std_apply (f a) v

/-- Return type of `unwrap_tuple` (`decltype(auto)` resolved by the
`if constexpr` on `std::tuple_size_v`): the element type for size one, the
tuple type itself otherwise. -/
def UnwrapTy (α : Type u) : Nat → Type u
  | 0 => Vec α 0
  | 1 => α
  | n + 2 => Vec α (n + 2)

/-- `entt::unwrap_tuple`: if the static size is one, return
`std::get<0>(std::forward<Type>(value))`; otherwise return
`std::forward<Type>(value)` — the tuple itself, unchanged. -/
def unwrap_tuple : {n : Nat} → Vec α n → UnwrapTy α n
  | 0, v => v
  | 1, v => v.head
  | _ + 2, v => v

/-- Value categories of C++ expressions, as far as binding and overload
resolution for this header go (xvalues are merged into `rvalue`). -/
inductive ValueCategory : Type where
  | lvalue
  | constLvalue
  | rvalue
deriving DecidableEq

/-- `std::forward<Type>(value)` inside `unwrap_tuple`: with `Type` deduced
from the forwarding reference `Type &&value`, it restores exactly the value
category the caller's argument had. -/
def forwardCat (c : ValueCategory) : ValueCategory := c

/-- The `std::get` overload set (`&`, `const &`, `&&`, `const &&`) propagates
the tuple's value category to the returned element reference. -/
def getCat (c : ValueCategory) : ValueCategory := c

/-- Value category of the result of `unwrap_tuple` as a function of the
static size and the category of the argument, following the two branches of
the source. -/
def unwrapResultCat (n : Nat) (c : ValueCategory) : ValueCategory :=
  if n = 1 then getCat (forwardCat c) else forwardCat c

/-- Constructor overload selected when initializing from an expression of a
given value category: rvalues bind the move constructor, lvalues the copy
constructor. -/
inductive CtorChoice : Type where
  | copy
  | move
deriving DecidableEq

/-- Overload resolution for direct-initialization from a value of category
`c`. -/
def bindChoice : ValueCategory → CtorChoice
  | .rvalue => .move
  | .lvalue => .copy
  | .constLvalue => .copy

/-- Assignment through the reference `unwrap_tuple` returns in the size-one
case: the source returns `std::get<0>(value)`, a reference to element `0` of
the original collection, so writing through it writes element `0` of the
original. -/
def writeThroughUnwrap (value : Vec α 1) (v : α) : Vec α 1 :=
  value.set ⟨0, Nat.one_pos⟩ v

/-- State-passing reading of `unwrap_tuple`: the source body contains no
assignment and no copy of any element (both branches forward references),
so the collection surviving the call is the argument itself. -/
def unwrap_tupleS (value : Vec α n) : UnwrapTy α n × Vec α n :=
  (unwrap_tuple value, value)

/-- Map over the result of an `n`-ary callable (used to embed a callable
whose non-const call also yields its successor state). -/
def NAry.map : {n : Nat} → (β → γ) → NAry α β n → NAry α γ n
  | 0, g, f => g f
  | _ + 1, g, f => fun a => NAry.map g (f a)

/-- A callable value of an arbitrary invocable C++ type: its own internal
state `state`, its non-const `operator()` (`body`, which may read and update
that state), and its const `operator()` when the type declares one
(`constBody = none` models a callable type whose invocation requires
mutation, for which a const-qualified call does not compile). -/
structure Callable (σ α β : Type u) (n : Nat) : Type u where
  state : σ
  body : σ → NAry α (β × σ) n
  constBody : Option (σ → NAry α β n)

/-- Embedding of a plain, state-free callable (such as the spec's
`add(a, b) -> a+b`): invocable both ways, never mutating itself. -/
def Callable.ofFn (f : NAry α β n) : Callable PUnit α β n where
  state := .unit
  body := fun s => NAry.map (fun b => (b, s)) f
  constBody := some fun _ => f

/-- `entt::forward_apply<Func>`: derives privately from `Func`, i.e. it
contains exactly one instance of the wrapped callable and nothing else. -/
structure forward_apply (F : Type u) : Type u where
  func : F

/-- The constructor of `forward_apply`: perfect-forwards its argument pack
into the construction of the contained `Func`
(`Func{std::forward<Args>(args)...}`).  The pack is modelled by an arbitrary
type `A` (`PUnit` for zero arguments, a product for several) and `Func`'s
own construction from that pack by `ctor`; no further validation exists. -/
def forward_apply.construct (ctor : A → F) (a : A) : forward_apply F :=
  ⟨ctor a⟩

/-- The non-const `operator()`:
`std::apply(static_cast<Func &>(*this), std::forward<Type>(args))`.  The
non-const access path lets the wrapped callable update its own state, so the
result is the callable's return value paired with the adapter as it stands
after the call: the same contained instance, evolved only by its own body. -/
def forward_apply.invoke (self : forward_apply (Callable σ α β n)) (args : Vec α n) :
    β × forward_apply (Callable σ α β n) :=
  let r := std_apply (self.func.body self.func.state) args
  (r.1, ⟨{ self.func with state := r.2 }⟩)

/-- The const `operator()`:
`std::apply(static_cast<const Func &>(*this), std::forward<Type>(args))`.
The const access path requires a const-invocable `Func`; if the callable has
no const call operator the overload does not compile, modelled by `none`. -/
def forward_apply.invokeConst (self : forward_apply (Callable σ α β n)) (args : Vec α n) :
    Option β :=
  match self.func.constBody with
  | some g => some (std_apply (g self.func.state) args)
  | none => none

/-- C++ object types for the deduction-guide model: a raw type (tagged by an
identifier) possibly const-qualified. -/
inductive CVType : Type where
  | raw : Nat → CVType
  | constQ : Nat → CVType
deriving DecidableEq

/-- C++ types as they appear in template argument deduction for this guide:
a (possibly cv-qualified) object type, or an lvalue/rvalue reference to
one. -/
inductive CppType : Type where
  | val : CVType → CppType
  | lref : CVType → CppType
  | rref : CVType → CppType
deriving DecidableEq

/-- Drop a top-level const qualifier. -/
def stripCV : CVType → CVType
  | .raw i => .raw i
  | .constQ i => .raw i

/-- `std::remove_cv_t`: removes top-level cv-qualifiers; reference types
carry none, so it is the identity on them. -/
def remove_cv : CppType → CppType
  | .val c => .val (stripCV c)
  | .lref c => .lref c
  | .rref c => .rref c

/-- `std::remove_reference_t`. -/
def remove_reference : CppType → CppType
  | .val c => .val c
  | .lref c => .val c
  | .rref c => .val c

/-- Template argument deduction for the guide's by-value parameter
`forward_apply(Func)`: deducing from an argument expression strips the
argument type's reference and its top-level cv-qualifiers. -/
def deduceByValue (a : CppType) : CppType :=
  remove_cv (remove_reference a)

/-- The deduction guide of the source,
`forward_apply(Func) -> forward_apply<std::remove_reference_t<std::remove_cv_t<Func>>>`,
applied to the deduced `Func`. -/
def guideContained (a : CppType) : CppType :=
  remove_reference (remove_cv (deduceByValue a))

/-- A plain, unqualified value type: no reference, no const. -/
def isPlainValue : CppType → Bool
  | .val (.raw _) => true
  | _ => false

/-- A callable whose invocation requires mutating its own state: a counter
with a non-const call operator only (`constBody = none`). -/
def counterCallable : Callable Nat Nat Nat 1 where
  state := 0
  body := fun s a => (a + s, s + 1)
  constBody := none

/-- A callable whose every invocation reports an error (the embedding of a
callable that throws). -/
def throwingCallable : NAry Nat (Except String Nat) 1 :=
  fun _ => Except.error "boom"

/-- `std::apply` of a result-mapped callable maps the result of the plain
application. -/
theorem std_apply_map {α β γ : Type u} : ∀ {n : Nat} (g : β → γ) (f : NAry α β n) (v : Vec α n),
    std_apply (NAry.map g f) v = g (std_apply f v)
  | 0, _, _, .nil => rfl
  | _ + 1, g, f, .cons a v => std_apply_map g (f a) v

end entt

namespace entt

/-- C1: invoking a forward-apply adapter (mutable or const form) with a
tuple-like collection of any size calls the wrapped callable with the
collection's elements spread as separate positional arguments in element
order and returns exactly the callable's result (for every arity `n`, both
invocation forms yield `std_apply f args`, the in-order positional
application); in particular for arity two the call is `f a b`, `add` on
`(3, 4)` yields `7`, and a zero-parameter callable on the empty collection
is invoked with no arguments and its result returned. -/
theorem adapter_spreads_elements_in_order :
    (∀ (α β : Type) (n : Nat) (f : NAry α β n) (args : Vec α n),
      ((forward_apply.construct id (Callable.ofFn f)).invoke args).1 = std_apply f args ∧
      (forward_apply.construct id (Callable.ofFn f)).invokeConst args = some (std_apply f args)) ∧
    (∀ (α β : Type) (f : NAry α β 2) (a b : α),
      ((forward_apply.construct id (Callable.ofFn f)).invoke (.cons a (.cons b .nil))).1 = f a b ∧
      (forward_apply.construct id (Callable.ofFn f)).invokeConst (.cons a (.cons b .nil)) = some (f a b)) ∧
    (∀ (β : Type) (r : NAry Nat β 0),
      ((forward_apply.construct id (Callable.ofFn r)).invoke .nil).1 = r ∧
      (forward_apply.construct id (Callable.ofFn r)).invokeConst .nil = some r) ∧
    ((forward_apply.construct id (Callable.ofFn (fun a b => a + b : NAry Nat Nat 2))).invoke
        (.cons 3 (.cons 4 .nil))).1 = 7 :=
  ⟨fun _ _ _ f args =>
    ⟨by simp [forward_apply.invoke, forward_apply.construct, Callable.ofFn, std_apply_map],
     by simp [forward_apply.invokeConst, forward_apply.construct, Callable.ofFn]⟩,
   fun _ _ _ _ _ => ⟨rfl, rfl⟩, fun _ _ => ⟨rfl, rfl⟩, rfl⟩

/-- C2: on a tuple of static size one, `unwrap_tuple` returns the sole
element, with the input's value category preserved; writing through the
returned reference rewrites the original collection's element. -/
theorem unwrap_singleton_returns_sole_element :
    ∀ (α : Type) (a : α),
      unwrap_tuple (Vec.cons a Vec.nil) = a ∧
      (∀ c, unwrapResultCat 1 c = c) ∧
      (∀ v, writeThroughUnwrap (Vec.cons a Vec.nil) v = Vec.cons v Vec.nil) :=
  fun _ _ => ⟨rfl, fun _ => rfl, fun _ => rfl⟩

/-- C3: on tuples of static size zero or at least two, `unwrap_tuple` is the
identity — the original collection is forwarded unchanged (hence equal in
size and element values), with its value category preserved. -/
theorem unwrap_non_singleton_is_identity :
    ∀ (α : Type),
      unwrap_tuple (Vec.nil : Vec α 0) = Vec.nil ∧
      (∀ (n : Nat) (v : Vec α (n + 2)), unwrap_tuple v = v) ∧
      (∀ (n : Nat) (c : ValueCategory),
        unwrapResultCat 0 c = c ∧ unwrapResultCat (n + 2) c = c) :=
  fun _ => ⟨rfl, fun _ _ => rfl, fun _ _ => ⟨rfl, rfl⟩⟩

/-- C4: `unwrap_tuple` neither copies nor mutates any element: the
collection surviving the call is the input itself, elementwise unchanged;
the result preserves the input's value category (a reference-preserving
view, not a copy); and on a size-one temporary (rvalue) the result is an
rvalue, so using it as a constructor argument selects the move constructor,
not the copy constructor. -/
theorem unwrap_frame_and_move :
    ∀ (α : Type) (n : Nat) (t : Vec α n),
      (unwrap_tupleS t).2 = t ∧
      (∀ i : Fin n, (unwrap_tupleS t).2.get i = t.get i) ∧
      (∀ c, unwrapResultCat n c = c) ∧
      bindChoice (unwrapResultCat 1 .rvalue) = .move :=
  fun _ n _ =>
    ⟨rfl, fun _ => rfl, fun c => by unfold unwrapResultCat forwardCat getCat; split <;> rfl, rfl⟩

/-- C5: constructing the adapter forwards the whole argument pack to the
contained callable's own construction — the contained callable is exactly
the one the pack constructs, for zero, one (copy/move from an existing
callable value) or more arguments, with no further validation. -/
theorem adapter_construction_forwards_pack :
    ∀ (A F : Type) (ctor : A → F) (a : A),
      (forward_apply.construct ctor a).func = ctor a ∧
      (∀ g : F, (forward_apply.construct id g).func = g) ∧
      (∀ g : F, (forward_apply.construct (fun _ : PUnit => g) PUnit.unit).func = g) :=
  fun _ _ _ _ => ⟨rfl, fun _ => rfl, fun _ => rfl⟩

/-- C6: const invocation of the adapter goes through the const access path
and succeeds exactly when the wrapped callable is const-invocable; for a
callable that requires mutation the const invocation is rejected
(does not compile, modelled by `none`) while mutable invocation remains
available. -/
theorem adapter_const_invocation_requires_const_callable :
    ∀ (σ α β : Type) (n : Nat) (c : Callable σ α β n) (args : Vec α n),
      (∀ g, c.constBody = some g →
        (forward_apply.construct id c).invokeConst args = some (std_apply (g c.state) args)) ∧
      (c.constBody = none →
        (forward_apply.construct id c).invokeConst args = none ∧
        ((forward_apply.construct id c).invoke args).1 = (std_apply (c.body c.state) args).1) :=
  fun _ _ _ _ c args =>
    ⟨fun g hg => by simp [forward_apply.invokeConst, forward_apply.construct, hg],
     fun hn => ⟨by simp [forward_apply.invokeConst, forward_apply.construct, hn], rfl⟩⟩

/-- Witness for C6 at concrete callables: a pure increment succeeds under
const invocation; the mutating counter is rejected under const invocation
yet remains invocable mutably. -/
theorem adapter_const_invocation_witness :
    (forward_apply.construct id (Callable.ofFn (fun a => a + 1 : NAry Nat Nat 1))).invokeConst
        (Vec.cons 3 Vec.nil)
      = some (std_apply ((fun _ => (fun a => a + 1 : NAry Nat Nat 1)) PUnit.unit)
          (Vec.cons 3 Vec.nil)) ∧
    (forward_apply.construct id counterCallable).invokeConst (Vec.cons 3 Vec.nil) = none :=
  ⟨(adapter_const_invocation_requires_const_callable PUnit Nat Nat 1
      (Callable.ofFn (fun a => a + 1)) (Vec.cons 3 Vec.nil)).1 _ rfl,
   ((adapter_const_invocation_requires_const_callable Nat Nat Nat 1
      counterCallable (Vec.cons 3 Vec.nil)).2 rfl).1⟩

/-- C7: building an adapter through the deduction guide from a value —
named lvalue, const lvalue or temporary — yields a contained type equal to
the value's type with reference and top-level cv-qualifiers removed: a
plain, unqualified value type. -/
theorem deduction_guide_strips_ref_and_cv :
    ∀ (a : CppType),
      guideContained a = remove_cv (remove_reference a) ∧
      isPlainValue (guideContained a) = true :=
  fun a => by
    cases a with
    | val c => cases c <;> exact ⟨rfl, rfl⟩
    | lref c => cases c <;> exact ⟨rfl, rfl⟩
    | rref c => cases c <;> exact ⟨rfl, rfl⟩

/-- C8: the adapter's own logic raises nothing at runtime: the result of
either invocation form is exactly the wrapped callable's own result at the
spread arguments, so an error result (a thrown exception) propagates
unchanged to the caller, neither caught nor suppressed. -/
theorem adapter_propagates_callable_result :
    ∀ (α E γ : Type) (n : Nat) (f : NAry α (Except E γ) n) (args : Vec α n),
      ((forward_apply.construct id (Callable.ofFn f)).invoke args).1 = std_apply f args ∧
      (forward_apply.construct id (Callable.ofFn f)).invokeConst args = some (std_apply f args) ∧
      (∀ e, std_apply f args = Except.error e →
        ((forward_apply.construct id (Callable.ofFn f)).invoke args).1 = Except.error e) :=
  fun _ _ _ _ f args =>
    ⟨by simp [forward_apply.invoke, forward_apply.construct, Callable.ofFn, std_apply_map],
     by simp [forward_apply.invokeConst, forward_apply.construct, Callable.ofFn],
     fun e he => by
       simp [forward_apply.invoke, forward_apply.construct, Callable.ofFn, std_apply_map, he]⟩

/-- Witness for C8: a callable that always throws has its error returned
unchanged by the adapter. -/
theorem adapter_propagates_callable_result_witness :
    ((forward_apply.construct id (Callable.ofFn throwingCallable)).invoke
        (Vec.cons 0 Vec.nil)).1 = Except.error "boom" :=
  (adapter_propagates_callable_result Nat String Nat 1 throwingCallable
    (Vec.cons 0 Vec.nil)).2.2 "boom" rfl

/-- C9: an adapter holds exactly one contained callable, fixed at
construction; neither invocation form replaces or reseats it (mutable
invocation only lets the callable's own body evolve its own state), and both
forms invoke that same contained instance. -/
theorem adapter_single_fixed_callable :
    ∀ (σ α β A : Type) (n : Nat) (ctor : A → Callable σ α β n) (a : A) (args : Vec α n),
      (forward_apply.construct ctor a).func = ctor a ∧
      (((forward_apply.construct ctor a).invoke args).2.func.body = (ctor a).body ∧
        ((forward_apply.construct ctor a).invoke args).2.func.constBody = (ctor a).constBody ∧
        ((forward_apply.construct ctor a).invoke args).2.func.state
          = (std_apply ((ctor a).body (ctor a).state) args).2) ∧
      ((forward_apply.construct ctor a).invoke args).1
        = (std_apply ((ctor a).body (ctor a).state) args).1 ∧
      (forward_apply.construct ctor a).invokeConst args
        = Option.map (fun g => std_apply (g (ctor a).state) args) (ctor a).constBody :=
  fun _ _ _ _ _ ctor a args =>
    ⟨rfl, ⟨rfl, rfl, rfl⟩, rfl, by
      cases hg : (ctor a).constBody with
      | none => simp [forward_apply.invokeConst, forward_apply.construct, hg]
      | some g => simp [forward_apply.invokeConst, forward_apply.construct, hg]⟩

/-- C10: `unwrap_tuple` unwraps exactly one level and is not recursive: on a
size-one collection whose sole element is itself a size-one collection it
returns the inner collection unchanged — a further application would be
needed to reach the inner element. -/
theorem unwrap_is_single_level :
    ∀ (β : Type) (inner : Vec β 1),
      unwrap_tuple (Vec.cons inner Vec.nil) = inner ∧
      unwrap_tuple (unwrap_tuple (Vec.cons inner Vec.nil)) = inner.head ∧
      unwrap_tuple (Vec.cons (Vec.cons (5 : Nat) Vec.nil) Vec.nil) = Vec.cons 5 Vec.nil :=
  fun _ _ => ⟨rfl, rfl, rfl⟩

end entt

